import Mathlib

/-!
# Verification of the termgpt conversation core (src/main.rs)

Shallow embedding of the conversation ledger, listener broadcast, session
encode/decode and the two driver modes (interactive REPL / batch) of
`src/main.rs`.

Modelling conventions:
* `Box<dyn Error>` and `io::Error` are modelled as `String` errors in `Except`.
* A listener (`dyn ChatMessageListener`) is modelled by a state type `L`
  together with an observation function `obs : L → ChatGptMessage → Except String L`
  (the `on_message` method of the vtable); a failing observation leaves the
  listener state unchanged in the model, and the messages it wrote before the
  failing one remain visible, exactly as a `&mut self` method behind `?`.
* The durable session file is modelled at the granularity of the serde layer:
  a file is a list of JSON values, one per line (`serde_jsonlines`); the raw
  byte-level JSON printing/parsing is the external `serde_json` collaborator.
  A missing file is `Option.none`.
* The transcript file is modelled as its `String` contents.
* `Vec::pop().unwrap()` is modelled with `List.getLast?`; the `None` case is a
  Rust panic, represented by a dedicated `panicked` outcome distinct from an
  ordinary error.
* The remote completion call is an oracle `port : List ChatGptMessage → Except String ChatGptResponse`;
  driver functions additionally record the list of argument histories passed
  to the oracle, so that "how often and with what was the port invoked" is an
  observable of the model.
-/

/-- `enum Role` from src/main.rs lines 16–22: serde `rename_all = "lowercase"`,
closed set assistant/system/user. -/
inductive Role where
  | assistant
  | system
  | user
deriving DecidableEq, Repr

/-- `struct ChatGptMessage { role, content }` (lines 40–44). -/
structure ChatGptMessage where
  role : Role
  content : String
deriving DecidableEq, Repr

/-- `struct ChatGptChoice { message }` (lines 35–38). -/
structure ChatGptChoice where
  message : ChatGptMessage
deriving DecidableEq, Repr

/-- `struct ChatGptResponse { choices: Vec<ChatGptChoice> }` (lines 30–33). -/
structure ChatGptResponse where
  choices : List ChatGptChoice
deriving DecidableEq, Repr

/-- JSON value tree, the interface to the external `serde_json` collaborator. -/
inductive Json where
  | null
  | bool (b : Bool)
  | num (n : Int)
  | str (s : String)
  | arr (elems : List Json)
  | obj (fields : List (String × Json))
deriving Repr

/-- serde serialization of `Role` under `rename_all = "lowercase"`. -/
def encodeRole : Role → Json
  | .assistant => .str "assistant"
  | .system => .str "system"
  | .user => .str "user"

/-- serde deserialization of `Role`: strict, any string outside the closed set
{"assistant", "system", "user"} (and any non-string) fails. -/
def decodeRole : Json → Option Role
  | .str "assistant" => some Role.assistant
  | .str "system" => some Role.system
  | .str "user" => some Role.user
  | _ => none

/-- serde serialization of `ChatGptMessage`: fields in declaration order. -/
def encodeMessage (m : ChatGptMessage) : Json :=
  .obj [("role", encodeRole m.role), ("content", .str m.content)]

/-- Field lookup in a JSON object (serde struct visitor: fields may appear in
any order, unknown fields are ignored by default). -/
def lookupField : List (String × Json) → String → Option Json
  | [], _ => none
  | (k, v) :: rest, key => if k = key then some v else lookupField rest key

/-- serde deserialization of `ChatGptMessage`: requires an object with a
`role` field decoding to a `Role` and a `content` field that is a string. -/
def decodeMessage : Json → Option ChatGptMessage
  | .obj fields =>
    match lookupField fields "role", lookupField fields "content" with
    | some rj, some (.str c) => (decodeRole rj).map (fun r => ⟨r, c⟩)
    | _, _ => none
  | _ => none

/-- Decoding of the lines of a session file, mirroring
`json_lines::<ChatGptMessage, _>(path)?.collect::<io::Result<Vec<_>>>()`:
each line must decode; the first failure fails the whole read. -/
def decodeLines : List Json → Except String (List ChatGptMessage)
  | [] => .ok []
  | j :: rest =>
    match decodeMessage j with
    | none => .error "could not decode session line"
    | some m => (decodeLines rest).map (fun ms => m :: ms)

/-- `read_session_messages` (lines 74–81): a missing file (`none`) yields the
empty sequence; an existing file is decoded line by line, strictly. -/
def read_session_messages : Option (List Json) → Except String (List ChatGptMessage)
  | none => .ok []
  | some lines => decodeLines lines

/-- `SessionAppendListener::on_message` (lines 126–132): encode the message as
one JSON line, append it to the file, flush. The listener state is the file
contents (list of JSON lines). -/
def SessionAppendListener.on_message (file : List Json) (m : ChatGptMessage) :
    Except String (List Json) :=
  .ok (file ++ [encodeMessage m])

/-- `OutputAppendListener::on_message` (lines 145–151):
`writeln!(writer, "\x7b\x7d\n", message.content)` appends the content, the
newline from the format string, and the newline from `writeln` — i.e. the
content followed by a blank line — then flushes. The listener state is the
transcript file contents. -/
def OutputAppendListener.on_message (file : String) (m : ChatGptMessage) :
    Except String String :=
  .ok (file ++ m.content ++ "\n\n")

/-- `struct ChatMessages` (lines 69–72): the ledger, owning the ordered
message sequence and the registered listeners (listener states of type `L`). -/
structure ChatMessages (L : Type) where
  messages : List ChatGptMessage
  listeners : List L

/-- `ChatMessages::new` (lines 84–89). -/
def ChatMessages.new (L : Type) : ChatMessages L := ⟨[], []⟩

/-- `ChatMessages::register` (lines 98–100): appends a listener. -/
def ChatMessages.register {L : Type} (cm : ChatMessages L) (l : L) : ChatMessages L :=
  { cm with listeners := cm.listeners ++ [l] }

/-- The listener loop inside `ChatMessages::push` (lines 103–105):
`for listener in self.listeners.iter_mut() \x7b listener.on_message(&message)?; \x7d`.
Invokes `obs` on each listener in order; on the first failure the remaining
listeners are not invoked (returned untouched) and the error is reported. -/
def broadcast {L : Type} (obs : L → ChatGptMessage → Except String L) :
    List L → ChatGptMessage → List L × Option String
  | [], _ => ([], none)
  | l :: ls, m =>
    match obs l m with
    | .error e => (l :: ls, some e)
    | .ok l' =>
      let (ls', r) := broadcast obs ls m
      (l' :: ls', r)

/-- `ChatMessages::push` (lines 102–108): broadcast to all listeners first;
only if every listener succeeds is the message appended to the sequence.
On failure the (possibly partially updated) listeners are kept, the message
sequence is unchanged, and the error is returned — exactly the effect of the
early `?` return out of a `&mut self` method. -/
def ChatMessages.push {L : Type} (obs : L → ChatGptMessage → Except String L)
    (cm : ChatMessages L) (m : ChatGptMessage) : ChatMessages L × Option String :=
  match broadcast obs cm.listeners m with
  | (ls', some e) => ({ cm with listeners := ls' }, some e)
  | (ls', none) => ({ messages := cm.messages ++ [m], listeners := ls' }, none)

/-- Sequentially pushing a list of turns, stopping at the first failure
(the driver aborts on any push failure). -/
def pushAll {L : Type} (obs : L → ChatGptMessage → Except String L)
    (cm : ChatMessages L) : List ChatGptMessage → Except String (ChatMessages L)
  | [] => .ok cm
  | m :: ms =>
    match cm.push obs m with
    | (_, some e) => .error e
    | (cm', none) => pushAll obs cm' ms

/-- Writing a list of turns one by one through the durable-log sink. -/
def writeSessionAll (file : List Json) : List ChatGptMessage → Except String (List Json)
  | [] => .ok file
  | m :: ms =>
    match SessionAppendListener.on_message file m with
    | .error e => .error e
    | .ok file' => writeSessionAll file' ms

/-- Writing a list of turns one by one through the transcript sink. -/
def writeOutputAll (file : String) : List ChatGptMessage → Except String String
  | [] => .ok file
  | m :: ms =>
    match OutputAppendListener.on_message file m with
    | .error e => .error e
    | .ok file' => writeOutputAll file' ms

/-- `reedline::Signal` as consumed by `repl_loop` (lines 173–196). -/
inductive Signal where
  | success (content : String)
  | ctrlD
  | ctrlC
deriving DecidableEq, Repr

/-- Outcome of the interactive driver. `calls` records, in order, the message
histories handed to the completion port. `panicked` is the Rust panic from
`.unwrap()` on an empty choice list; `blocked` represents exhausting the
finite input trace without a terminating signal (the real loop would block
reading the next line). -/
inductive RunResult (L : Type) where
  | ok (cm : ChatMessages L) (calls : List (List ChatGptMessage))
  | err (e : String) (calls : List (List ChatGptMessage))
  | panicked (calls : List (List ChatGptMessage))
  | blocked (cm : ChatMessages L) (calls : List (List ChatGptMessage))

/-- The port-call trace of a `RunResult`. -/
def RunResult.calls {L : Type} : RunResult L → List (List ChatGptMessage)
  | .ok _ cs => cs
  | .err _ cs => cs
  | .panicked cs => cs
  | .blocked _ cs => cs

/-- `repl_loop` (lines 160–199), driven by a finite trace of input signals.
On `Success(content)`: push a user turn (abort on failure), invoke the port
with the full current history, take the *last* choice (`Vec::pop`), `unwrap`
it (panic when the choice list is empty), display it, push the reply turn,
and loop. On `CtrlD` or `CtrlC`: break out of the loop and return `Ok(())`. -/
def repl_loop {L : Type} (obs : L → ChatGptMessage → Except String L)
    (port : List ChatGptMessage → Except String ChatGptResponse) :
    List Signal → ChatMessages L → List (List ChatGptMessage) → RunResult L
  | [], cm, calls => .blocked cm calls
  | sig :: sigs, cm, calls =>
    match sig with
    | .success content =>
      match cm.push obs ⟨Role.user, content⟩ with
      | (_, some e) => .err e calls
      | (cm₁, none) =>
        match port cm₁.messages with
        | .error e => .err e (calls ++ [cm₁.messages])
        | .ok resp =>
          match resp.choices.getLast? with
          | none => .panicked (calls ++ [cm₁.messages])
          | some choice =>
            match cm₁.push obs choice.message with
            | (_, some e) => .err e (calls ++ [cm₁.messages])
            | (cm₂, none) => repl_loop obs port sigs cm₂ (calls ++ [cm₁.messages])
    | .ctrlD => .ok cm calls
    | .ctrlC => .ok cm calls

/-- Outcome of the batch driver: on success, `printed` is the line written to
standard output (the content of the selected reply). -/
inductive BatchResult (L : Type) where
  | ok (printed : String) (cm : ChatMessages L) (calls : List (List ChatGptMessage))
  | err (e : String) (calls : List (List ChatGptMessage))
  | panicked (calls : List (List ChatGptMessage))

/-- The port-call trace of a `BatchResult`. -/
def BatchResult.calls {L : Type} : BatchResult L → List (List ChatGptMessage)
  | .ok _ _ cs => cs
  | .err _ cs => cs
  | .panicked cs => cs

/-- `print_response` (lines 221–233): invoke the port once with the full
history, take the last choice (`pop`), `unwrap` (panic when empty), print its
content, push the reply turn. -/
def print_response {L : Type} (obs : L → ChatGptMessage → Except String L)
    (port : List ChatGptMessage → Except String ChatGptResponse)
    (cm : ChatMessages L) : BatchResult L :=
  match port cm.messages with
  | .error e => .err e [cm.messages]
  | .ok resp =>
    match resp.choices.getLast? with
    | none => .panicked [cm.messages]
    | some choice =>
      match cm.push obs choice.message with
      | (_, some e) => .err e [cm.messages]
      | (cm', none) => .ok choice.message.content cm' [cm.messages]

/-- The batch branch of `main` (lines 265–269): read the whole input stream
as one string, push one user turn built from it, then `print_response`. -/
def batch_main {L : Type} (obs : L → ChatGptMessage → Except String L)
    (port : List ChatGptMessage → Except String ChatGptResponse)
    (input : String) (cm : ChatMessages L) : BatchResult L :=
  match cm.push obs ⟨Role.user, input⟩ with
  | (_, some e) => .err e []
  | (cm₁, none) => print_response obs port cm₁

/-! ## Helper lemmas -/

theorem string_append_assoc (a b c : String) : a ++ b ++ c = a ++ (b ++ c) := by
  apply String.ext
  simp [String.data_append, List.append_assoc]

theorem broadcast_allOk {L : Type} (obs : L → ChatGptMessage → Except String L)
    (m : ChatGptMessage) (f : L → L) :
    ∀ ls : List L, (∀ l ∈ ls, obs l m = .ok (f l)) →
    broadcast obs ls m = (ls.map f, none) := by
  intro ls
  induction ls with
  | nil => intro _; rfl
  | cons l ls ih =>
    intro h
    have hl : obs l m = .ok (f l) := h l (List.mem_cons_self l ls)
    have hrest := ih (fun x hx => h x (List.mem_cons_of_mem l hx))
    simp [broadcast, hl, hrest]

theorem broadcast_firstFail {L : Type} (obs : L → ChatGptMessage → Except String L)
    (m : ChatGptMessage) (f : L → L) (lk : L) (post : List L) (e : String)
    (hk : obs lk m = .error e) :
    ∀ pre : List L, (∀ l ∈ pre, obs l m = .ok (f l)) →
    broadcast obs (pre ++ lk :: post) m = (pre.map f ++ lk :: post, some e) := by
  intro pre
  induction pre with
  | nil => intro _; simp [broadcast, hk]
  | cons l pre ih =>
    intro h
    have hl : obs l m = .ok (f l) := h l (List.mem_cons_self l pre)
    have hrest := ih (fun x hx => h x (List.mem_cons_of_mem l hx))
    simp [broadcast, hl, hrest]

theorem push_allOk {L : Type} (obs : L → ChatGptMessage → Except String L)
    (f : L → L) (hobs : ∀ l m, obs l m = .ok (f l))
    (cm : ChatMessages L) (m : ChatGptMessage) :
    cm.push obs m = (⟨cm.messages ++ [m], cm.listeners.map f⟩, none) := by
  have hb := broadcast_allOk obs m f cm.listeners (fun l _ => hobs l m)
  simp [ChatMessages.push, hb]

theorem push_ok_messages {L : Type} (obs : L → ChatGptMessage → Except String L)
    (cm cm' : ChatMessages L) (m : ChatGptMessage)
    (h : cm.push obs m = (cm', none)) :
    cm'.messages = cm.messages ++ [m] := by
  unfold ChatMessages.push at h
  rcases hb : broadcast obs cm.listeners m with ⟨ls', r⟩
  rw [hb] at h
  cases r with
  | none =>
    simp only [Prod.mk.injEq, and_true] at h
    rw [← h]
  | some e => simp at h

theorem repl_calls_extend {L : Type} (obs : L → ChatGptMessage → Except String L)
    (port : List ChatGptMessage → Except String ChatGptResponse) :
    ∀ (sigs : List Signal) (cm : ChatMessages L) (calls : List (List ChatGptMessage)),
    ∃ t, (repl_loop obs port sigs cm calls).calls = calls ++ t := by
  intro sigs
  induction sigs with
  | nil =>
    intro cm calls
    exact ⟨[], by simp [repl_loop, RunResult.calls]⟩
  | cons sig sigs ih =>
    intro cm calls
    cases sig with
    | ctrlD => exact ⟨[], by simp [repl_loop, RunResult.calls]⟩
    | ctrlC => exact ⟨[], by simp [repl_loop, RunResult.calls]⟩
    | success content =>
      rcases hp : cm.push obs ⟨Role.user, content⟩ with ⟨cm₁, r⟩
      cases r with
      | some e =>
        exact ⟨[], by simp [repl_loop, hp, RunResult.calls]⟩
      | none =>
        rcases hq : port cm₁.messages with e | resp
        · exact ⟨[cm₁.messages], by simp [repl_loop, hp, hq, RunResult.calls]⟩
        · rcases hl : resp.choices.getLast? with _ | choice
          · exact ⟨[cm₁.messages], by simp [repl_loop, hp, hq, hl, RunResult.calls]⟩
          · rcases hp₂ : cm₁.push obs choice.message with ⟨cm₂, r₂⟩
            cases r₂ with
            | some e =>
              exact ⟨[cm₁.messages], by simp [repl_loop, hp, hq, hl, hp₂, RunResult.calls]⟩
            | none =>
              obtain ⟨t, ht⟩ := ih cm₂ (calls ++ [cm₁.messages])
              refine ⟨[cm₁.messages] ++ t, ?_⟩
              simp only [repl_loop, hp, hq, hl, hp₂]
              rw [ht, List.append_assoc]

/-- C2: `push(turn)` invokes `observe` on the registered sinks in registration
order; if a sink fails, the sinks after it are not invoked (they come back in
their untouched prior states and the result does not depend on them), the
failure is returned, and the message sequence is unchanged; only when every
sink succeeds is the turn appended and success returned. -/
theorem C2_push_broadcast {L : Type} (obs : L → ChatGptMessage → Except String L)
    (cm : ChatMessages L) (m : ChatGptMessage) :
    (∀ (pre : List L) (lk : L) (post : List L) (e : String) (f : L → L),
       cm.listeners = pre ++ lk :: post →
       (∀ l ∈ pre, obs l m = .ok (f l)) →
       obs lk m = .error e →
       cm.push obs m
         = ({ messages := cm.messages, listeners := pre.map f ++ lk :: post }, some e))
    ∧ (∀ f : L → L, (∀ l ∈ cm.listeners, obs l m = .ok (f l)) →
       cm.push obs m
         = ({ messages := cm.messages ++ [m], listeners := cm.listeners.map f }, none)) := by
  constructor
  · intro pre lk post e f hls hpre hk
    have hb := broadcast_firstFail obs m f lk post e hk pre hpre
    simp [ChatMessages.push, hls, hb]
  · intro f hall
    have hb := broadcast_allOk obs m f cm.listeners hall
    simp [ChatMessages.push, hb]

/-- C2 witness: three sinks, the middle one failing; the first is invoked, the
third comes back untouched, the error is returned, the sequence unchanged. -/
theorem C2_push_broadcast_witness :
    (ChatMessages.push (L := Bool)
        (fun l _ => if l then .error "disk full" else .ok l)
        ⟨[⟨Role.system, "s"⟩], [false, true, false]⟩ ⟨Role.user, "hi"⟩
      = (⟨[⟨Role.system, "s"⟩], [false, true, false]⟩, some "disk full"))
    ∧ (ChatMessages.push (L := Bool)
        (fun l _ => if l then .error "disk full" else .ok l)
        ⟨[⟨Role.system, "s"⟩], [false, false]⟩ ⟨Role.user, "hi"⟩
      = (⟨[⟨Role.system, "s"⟩, ⟨Role.user, "hi"⟩], [false, false]⟩, none)) := by
  constructor
  · exact (C2_push_broadcast (fun l _ => if l then .error "disk full" else .ok l)
      ⟨[⟨Role.system, "s"⟩], [false, true, false]⟩ ⟨Role.user, "hi"⟩).1
      [false] true [false] "disk full" id rfl
      (by intro l hl; simp only [List.mem_singleton] at hl; subst hl; rfl) rfl
  · exact (C2_push_broadcast (fun l _ => if l then .error "disk full" else .ok l)
      ⟨[⟨Role.system, "s"⟩], [false, false]⟩ ⟨Role.user, "hi"⟩).2
      id (by intro l hl
             simp only [List.mem_cons, List.not_mem_nil, or_false] at hl
             rcases hl with h | h <;> (subst h; rfl))

/-- C3: successfully pushed turns are exactly appended, in push order, to the
loaded initial sequence — no reordering, loss or mutation — and the sequence
handed to the completion port is always the full current history: in batch
mode `print_response` passes exactly `cm.messages`, and in the interactive
loop the port call made for a submitted line receives exactly the history
including the just-pushed user turn. -/
theorem C3_append_only_full_history :
    (∀ (L : Type) (obs : L → ChatGptMessage → Except String L)
       (cm : ChatMessages L) (ts : List ChatGptMessage) (cm' : ChatMessages L),
       pushAll obs cm ts = .ok cm' →
       cm'.messages = cm.messages ++ ts)
    ∧ (∀ (L : Type) (obs : L → ChatGptMessage → Except String L)
       (port : List ChatGptMessage → Except String ChatGptResponse)
       (cm : ChatMessages L),
       (print_response obs port cm).calls = [cm.messages])
    ∧ (∀ (L : Type) (obs : L → ChatGptMessage → Except String L)
       (port : List ChatGptMessage → Except String ChatGptResponse)
       (cm cm₁ : ChatMessages L) (u : String) (sigs : List Signal)
       (calls : List (List ChatGptMessage)),
       cm.push obs ⟨Role.user, u⟩ = (cm₁, none) →
       ∃ t, (repl_loop obs port (Signal.success u :: sigs) cm calls).calls
             = calls ++ (cm.messages ++ [⟨Role.user, u⟩]) :: t) := by
  refine ⟨?_, ?_, ?_⟩
  · intro L obs cm ts
    induction ts generalizing cm with
    | nil =>
      intro cm' h
      simp only [pushAll] at h
      cases h
      simp
    | cons m ms ih =>
      intro cm' h
      rw [pushAll] at h
      rcases hp : cm.push obs m with ⟨cm₁, r⟩
      rw [hp] at h
      cases r with
      | some e => simp at h
      | none =>
        have h₁ := push_ok_messages obs cm cm₁ m hp
        have h₂ := ih cm₁ cm' h
        rw [h₂, h₁, List.append_assoc]
        rfl
  · intro L obs port cm
    unfold print_response
    rcases hq : port cm.messages with e | resp
    · simp [BatchResult.calls]
    · rcases hl : resp.choices.getLast? with _ | choice
      · simp [hl, BatchResult.calls]
      · rcases hp : cm.push obs choice.message with ⟨cm', r⟩
        cases r <;> simp [hl, hp, BatchResult.calls]
  · intro L obs port cm cm₁ u sigs calls hp
    have hmsg := push_ok_messages obs cm cm₁ ⟨Role.user, u⟩ hp
    rw [← hmsg]
    rcases hq : port cm₁.messages with e | resp
    · exact ⟨[], by simp [repl_loop, hp, hq, RunResult.calls]⟩
    · rcases hl : resp.choices.getLast? with _ | choice
      · exact ⟨[], by simp [repl_loop, hp, hq, hl, RunResult.calls]⟩
      · rcases hp₂ : cm₁.push obs choice.message with ⟨cm₂, r₂⟩
        cases r₂ with
        | some e =>
          exact ⟨[], by simp [repl_loop, hp, hq, hl, hp₂, RunResult.calls]⟩
        | none =>
          obtain ⟨t, ht⟩ := repl_calls_extend obs port sigs cm₂ (calls ++ [cm₁.messages])
          refine ⟨t, ?_⟩
          simp only [repl_loop, hp, hq, hl, hp₂]
          rw [ht, List.append_assoc]
          rfl

/-- C3 witness: two pushes onto a loaded one-element history append exactly in
order; the batch driver hands the port the full history; the interactive loop
hands the port the history including the freshly pushed user turn. -/
theorem C3_append_only_full_history_witness :
    (∃ cm' : ChatMessages Unit,
       pushAll (fun l _ => .ok l) ⟨[⟨Role.system, "s"⟩], []⟩
           [⟨Role.user, "a"⟩, ⟨Role.assistant, "b"⟩] = .ok cm'
       ∧ cm'.messages = [⟨Role.system, "s"⟩, ⟨Role.user, "a"⟩, ⟨Role.assistant, "b"⟩])
    ∧ (print_response (L := Unit) (fun l _ => .ok l) (fun _ => .error "down")
         ⟨[⟨Role.user, "a"⟩], []⟩).calls = [[⟨Role.user, "a"⟩]]
    ∧ (∃ t, (repl_loop (L := Unit) (fun l _ => .ok l) (fun _ => .error "down")
         [Signal.success "a"] ⟨[⟨Role.system, "s"⟩], []⟩ []).calls
           = [] ++ ([⟨Role.system, "s"⟩] ++ [⟨Role.user, "a"⟩]) :: t) := by
  refine ⟨⟨⟨[⟨Role.system, "s"⟩, ⟨Role.user, "a"⟩, ⟨Role.assistant, "b"⟩], []⟩, rfl, ?_⟩, ?_, ?_⟩
  · exact C3_append_only_full_history.1 Unit (fun l _ => .ok l)
      ⟨[⟨Role.system, "s"⟩], []⟩ [⟨Role.user, "a"⟩, ⟨Role.assistant, "b"⟩] _ rfl
  · exact C3_append_only_full_history.2.1 Unit (fun l _ => .ok l) (fun _ => .error "down")
      ⟨[⟨Role.user, "a"⟩], []⟩
  · exact C3_append_only_full_history.2.2 Unit (fun l _ => .ok l) (fun _ => .error "down")
      ⟨[⟨Role.system, "s"⟩], []⟩ ⟨[⟨Role.system, "s"⟩, ⟨Role.user, "a"⟩], []⟩ "a" [] [] rfl

theorem decode_encode (m : ChatGptMessage) : decodeMessage (encodeMessage m) = some m := by
  rcases m with ⟨r, c⟩
  cases r <;>
    simp [encodeMessage, encodeRole, decodeMessage, lookupField, decodeRole]

theorem decodeLines_map_encode (msgs : List ChatGptMessage) :
    decodeLines (msgs.map encodeMessage) = .ok msgs := by
  induction msgs with
  | nil => rfl
  | cons m ms ih =>
    simp [decodeLines, decode_encode, ih, Except.map]

theorem writeSessionAll_eq (msgs : List ChatGptMessage) :
    ∀ file : List Json,
    writeSessionAll file msgs = .ok (file ++ msgs.map encodeMessage) := by
  induction msgs with
  | nil => intro file; simp [writeSessionAll]
  | cons m ms ih =>
    intro file
    simp [writeSessionAll, SessionAppendListener.on_message, ih, List.append_assoc]

/-- C4: writing any sequence of turns one by one through the durable-log
sink's `on_message` into a fresh (empty) file and loading the result with
`read_session_messages` reproduces exactly those turns, in order, with equal
role and content values. -/
theorem C4_session_roundtrip (msgs : List ChatGptMessage) :
    writeSessionAll [] msgs = .ok (msgs.map encodeMessage)
    ∧ read_session_messages (some (msgs.map encodeMessage)) = .ok msgs := by
  constructor
  · simpa using writeSessionAll_eq msgs []
  · simpa [read_session_messages] using decodeLines_map_encode msgs

theorem decodeRole_unknown (s : String)
    (h1 : s ≠ "assistant") (h2 : s ≠ "system") (h3 : s ≠ "user") :
    decodeRole (Json.str s) = none := by
  rw [decodeRole.eq_def]
  split <;> simp_all

theorem decodeLines_fails_on_bad_line (lines : List Json) (j : Json)
    (hmem : j ∈ lines) (hbad : decodeMessage j = none) :
    decodeLines lines = .error "could not decode session line" := by
  induction lines with
  | nil => cases hmem
  | cons l rest ih =>
    rcases List.mem_cons.mp hmem with h | h
    · subst h
      simp [decodeLines, hbad]
    · rcases hd : decodeMessage l with _ | m
      · simp [decodeLines, hd]
      · simp [decodeLines, hd, ih h, Except.map]

/-- C5: loading a missing session file yields the empty sequence; any line of
an existing file that does not decode to a turn — in particular an object
whose role string lies outside the closed set \x7buser, assistant, system\x7d —
makes the whole load fail, rather than being skipped or coerced. -/
theorem C5_load_strict :
    read_session_messages none = .ok []
    ∧ (∀ (lines : List Json) (j : Json), j ∈ lines → decodeMessage j = none →
        read_session_messages (some lines) = .error "could not decode session line")
    ∧ (∀ (s c : String), s ≠ "assistant" → s ≠ "system" → s ≠ "user" →
        decodeMessage (Json.obj [("role", Json.str s), ("content", Json.str c)]) = none) := by
  refine ⟨rfl, ?_, ?_⟩
  · intro lines j hmem hbad
    simpa [read_session_messages] using decodeLines_fails_on_bad_line lines j hmem hbad
  · intro s c h1 h2 h3
    simp [decodeMessage, lookupField, decodeRole_unknown s h1 h2 h3]

/-- C5 witness: a file whose single line carries the unrecognized role
"robot" fails to load as a whole. -/
theorem C5_load_strict_witness :
    read_session_messages (some [Json.obj [("role", Json.str "robot"), ("content", Json.str "hi")]])
      = .error "could not decode session line"
    ∧ decodeMessage (Json.obj [("role", Json.str "robot"), ("content", Json.str "hi")]) = none := by
  have hbad := C5_load_strict.2.2 "robot" "hi" (by decide) (by decide) (by decide)
  exact ⟨C5_load_strict.2.1 _ _ (List.mem_singleton.mpr rfl) hbad, hbad⟩

/-- C1: whenever the completion port returns a response with a non-empty
choice list `cs ++ [c]`, both the interactive loop and the batch
`print_response` commit exactly the last choice `c` as the reply turn —
the final history ends with `c.message`, never an earlier element. -/
theorem C1_last_choice_committed {L : Type}
    (obs : L → ChatGptMessage → Except String L) (f : L → L)
    (hobs : ∀ l m, obs l m = .ok (f l))
    (port : List ChatGptMessage → Except String ChatGptResponse)
    (resp : ChatGptResponse) (cs : List ChatGptChoice) (c : ChatGptChoice)
    (hcs : resp.choices = cs ++ [c]) :
    (∀ (cm : ChatMessages L) (u : String),
       port (cm.messages ++ [⟨Role.user, u⟩]) = .ok resp →
       repl_loop obs port [Signal.success u, Signal.ctrlD] cm []
         = .ok ⟨cm.messages ++ [⟨Role.user, u⟩, c.message], (cm.listeners.map f).map f⟩
             [cm.messages ++ [⟨Role.user, u⟩]])
    ∧ (∀ cm : ChatMessages L,
       port cm.messages = .ok resp →
       print_response obs port cm
         = .ok c.message.content ⟨cm.messages ++ [c.message], cm.listeners.map f⟩
             [cm.messages]) := by
  have hlast : resp.choices.getLast? = some c := by
    rw [hcs]
    exact List.getLast?_concat cs
  constructor
  · intro cm u hport
    have hp₁ := push_allOk obs f hobs cm ⟨Role.user, u⟩
    have hp₂ := push_allOk obs f hobs
      ⟨cm.messages ++ [⟨Role.user, u⟩], cm.listeners.map f⟩ c.message
    simp only [repl_loop, hp₁, hport, hlast, hp₂, List.append_assoc]
    rfl
  · intro cm hport
    have hp := push_allOk obs f hobs cm c.message
    simp only [print_response, hport, hlast, hp]

/-- C1 witness: with choices `[A, B, C]` the committed reply is `C` in both
modes. -/
theorem C1_last_choice_committed_witness :
    (repl_loop (L := Unit) (fun l _ => .ok l)
        (fun _ => .ok ⟨[⟨⟨Role.assistant, "A"⟩⟩, ⟨⟨Role.assistant, "B"⟩⟩, ⟨⟨Role.assistant, "C"⟩⟩]⟩)
        [Signal.success "q", Signal.ctrlD] ⟨[], []⟩ []
      = .ok ⟨[⟨Role.user, "q"⟩, ⟨Role.assistant, "C"⟩], []⟩ [[⟨Role.user, "q"⟩]])
    ∧ (print_response (L := Unit) (fun l _ => .ok l)
        (fun _ => .ok ⟨[⟨⟨Role.assistant, "A"⟩⟩, ⟨⟨Role.assistant, "B"⟩⟩, ⟨⟨Role.assistant, "C"⟩⟩]⟩)
        ⟨[⟨Role.user, "q"⟩], []⟩
      = .ok "C" ⟨[⟨Role.user, "q"⟩, ⟨Role.assistant, "C"⟩], []⟩ [[⟨Role.user, "q"⟩]]) := by
  constructor
  · exact (C1_last_choice_committed (fun l _ => .ok l) id (fun _ _ => rfl)
      (fun _ => .ok ⟨[⟨⟨Role.assistant, "A"⟩⟩, ⟨⟨Role.assistant, "B"⟩⟩, ⟨⟨Role.assistant, "C"⟩⟩]⟩)
      ⟨[⟨⟨Role.assistant, "A"⟩⟩, ⟨⟨Role.assistant, "B"⟩⟩, ⟨⟨Role.assistant, "C"⟩⟩]⟩
      [⟨⟨Role.assistant, "A"⟩⟩, ⟨⟨Role.assistant, "B"⟩⟩] ⟨⟨Role.assistant, "C"⟩⟩ rfl).1
      ⟨[], []⟩ "q" rfl
  · exact (C1_last_choice_committed (fun l _ => .ok l) id (fun _ _ => rfl)
      (fun _ => .ok ⟨[⟨⟨Role.assistant, "A"⟩⟩, ⟨⟨Role.assistant, "B"⟩⟩, ⟨⟨Role.assistant, "C"⟩⟩]⟩)
      ⟨[⟨⟨Role.assistant, "A"⟩⟩, ⟨⟨Role.assistant, "B"⟩⟩, ⟨⟨Role.assistant, "C"⟩⟩]⟩
      [⟨⟨Role.assistant, "A"⟩⟩, ⟨⟨Role.assistant, "B"⟩⟩] ⟨⟨Role.assistant, "C"⟩⟩ rfl).2
      ⟨[⟨Role.user, "q"⟩], []⟩ rfl

/-- C6: in batch mode the driver pushes exactly one user turn built from the
whole input, invokes the completion port exactly once — with the full history
including that turn — prints the selected (last) choice's content, and pushes
the reply; the final history is the initial one followed by user turn then
reply turn. -/
theorem C6_batch_single_roundtrip {L : Type}
    (obs : L → ChatGptMessage → Except String L) (f : L → L)
    (hobs : ∀ l m, obs l m = .ok (f l))
    (port : List ChatGptMessage → Except String ChatGptResponse)
    (cm : ChatMessages L) (input : String)
    (resp : ChatGptResponse) (cs : List ChatGptChoice) (c : ChatGptChoice)
    (hcs : resp.choices = cs ++ [c])
    (hport : port (cm.messages ++ [⟨Role.user, input⟩]) = .ok resp) :
    batch_main obs port input cm
      = .ok c.message.content
          ⟨cm.messages ++ [⟨Role.user, input⟩, c.message], (cm.listeners.map f).map f⟩
          [cm.messages ++ [⟨Role.user, input⟩]] := by
  have hlast : resp.choices.getLast? = some c := by
    rw [hcs]
    exact List.getLast?_concat cs
  have hp₁ := push_allOk obs f hobs cm ⟨Role.user, input⟩
  have hp₂ := push_allOk obs f hobs
    ⟨cm.messages ++ [⟨Role.user, input⟩], cm.listeners.map f⟩ c.message
  simp only [batch_main, hp₁, print_response, hport, hlast, hp₂, List.append_assoc]
  rfl

/-- C6 witness: piped input "Hello" with one returned choice "Hi there"
prints exactly "Hi there" and leaves the ledger with user/"Hello" then
assistant/"Hi there". -/
theorem C6_batch_single_roundtrip_witness :
    batch_main (L := Unit) (fun l _ => .ok l)
        (fun _ => .ok ⟨[⟨⟨Role.assistant, "Hi there"⟩⟩]⟩) "Hello" ⟨[], []⟩
      = .ok "Hi there"
          ⟨[⟨Role.user, "Hello"⟩, ⟨Role.assistant, "Hi there"⟩], []⟩
          [[⟨Role.user, "Hello"⟩]] :=
  C6_batch_single_roundtrip (fun l _ => .ok l) id (fun _ _ => rfl)
    (fun _ => .ok ⟨[⟨⟨Role.assistant, "Hi there"⟩⟩]⟩) ⟨[], []⟩ "Hello"
    ⟨[⟨⟨Role.assistant, "Hi there"⟩⟩]⟩ [] ⟨⟨Role.assistant, "Hi there"⟩⟩ rfl rfl

/-- C7: in interactive mode, an end-of-input signal before any line of text
terminates the driver successfully, with the ledger exactly as initially
loaded (no push) and an empty port-call trace (zero port invocations). -/
theorem C7_eof_before_any_line {L : Type}
    (obs : L → ChatGptMessage → Except String L)
    (port : List ChatGptMessage → Except String ChatGptResponse)
    (cm : ChatMessages L) (rest : List Signal) :
    repl_loop obs port (Signal.ctrlD :: rest) cm [] = .ok cm [] := rfl

/-- The text a sequence of turns contributes to the transcript file: the
contents in order, each followed by a blank line. -/
def transcriptOf : List ChatGptMessage → String
  | [] => ""
  | m :: ms => m.content ++ "\n\n" ++ transcriptOf ms

/-- C8: the transcript sink's `on_message` appends exactly the turn's content
followed by a blank line (no role metadata), and observing a sequence of
turns appends their contents in order, each followed by a blank line. -/
theorem C8_transcript_blank_line (file : String) (m : ChatGptMessage)
    (msgs : List ChatGptMessage) :
    OutputAppendListener.on_message file m = .ok (file ++ m.content ++ "\n\n")
    ∧ writeOutputAll file msgs = .ok (file ++ transcriptOf msgs) := by
  constructor
  · rfl
  · induction msgs generalizing file with
    | nil => simp [writeOutputAll, transcriptOf]
    | cons x xs ih =>
      simp only [writeOutputAll, OutputAppendListener.on_message, ih, transcriptOf]
      rw [string_append_assoc file x.content "\n\n",
        string_append_assoc file (x.content ++ "\n\n") (transcriptOf xs),
        string_append_assoc x.content "\n\n" (transcriptOf xs)]

/-- C9 (implicit): when the completion port returns an empty choice list, the
reply selection (`choices.pop().unwrap()`) panics in both modes — the outcome
is the dedicated `panicked` constructor, not an ordinary `err` surfaced to
the process boundary; selection is only well-defined for non-empty choices. -/
theorem C9_empty_choices_panic {L : Type}
    (obs : L → ChatGptMessage → Except String L) (f : L → L)
    (hobs : ∀ l m, obs l m = .ok (f l))
    (port : List ChatGptMessage → Except String ChatGptResponse)
    (resp : ChatGptResponse) (hresp : resp.choices = []) :
    (∀ (cm : ChatMessages L) (u : String),
       port (cm.messages ++ [⟨Role.user, u⟩]) = .ok resp →
       repl_loop obs port [Signal.success u] cm []
         = .panicked [cm.messages ++ [⟨Role.user, u⟩]])
    ∧ (∀ cm : ChatMessages L,
       port cm.messages = .ok resp →
       print_response obs port cm = .panicked [cm.messages]) := by
  have hlast : resp.choices.getLast? = none := by
    rw [hresp]
    rfl
  constructor
  · intro cm u hport
    have hp₁ := push_allOk obs f hobs cm ⟨Role.user, u⟩
    simp only [repl_loop, hp₁, hport, hlast]
    rfl
  · intro cm hport
    simp only [print_response, hport, hlast]

/-- C9 witness: a port answering with zero choices makes both drivers panic
after their single port call. -/
theorem C9_empty_choices_panic_witness :
    (repl_loop (L := Unit) (fun l _ => .ok l) (fun _ => .ok ⟨[]⟩)
        [Signal.success "q"] ⟨[], []⟩ []
      = .panicked [[⟨Role.user, "q"⟩]])
    ∧ (print_response (L := Unit) (fun l _ => .ok l) (fun _ => .ok ⟨[]⟩)
        ⟨[⟨Role.user, "q"⟩], []⟩
      = .panicked [[⟨Role.user, "q"⟩]]) := by
  constructor
  · exact (C9_empty_choices_panic (fun l _ => .ok l) id (fun _ _ => rfl)
      (fun _ => .ok ⟨[]⟩) ⟨[]⟩ rfl).1 ⟨[], []⟩ "q" rfl
  · exact (C9_empty_choices_panic (fun l _ => .ok l) id (fun _ _ => rfl)
      (fun _ => .ok ⟨[]⟩) ⟨[]⟩ rfl).2 ⟨[⟨Role.user, "q"⟩], []⟩ rfl

/-- C10 (implicit): in the interactive loop an interrupt signal (Ctrl-C) is
handled by the very same match arm as end-of-input (Ctrl-D): both break out
of the loop and return success with the ledger exactly as it stood after the
last committed turn, and no further port call. -/
theorem C10_ctrlc_like_ctrld {L : Type}
    (obs : L → ChatGptMessage → Except String L)
    (port : List ChatGptMessage → Except String ChatGptResponse)
    (cm : ChatMessages L) (rest : List Signal)
    (calls : List (List ChatGptMessage)) :
    repl_loop obs port (Signal.ctrlC :: rest) cm calls
      = repl_loop obs port (Signal.ctrlD :: rest) cm calls
    ∧ repl_loop obs port (Signal.ctrlC :: rest) cm calls = .ok cm calls :=
  ⟨rfl, rfl⟩
